import Mathlib

/-!
Shallow embedding of the Notes-App worker (src/src/index.ts): a CRUD API for
notes backed by a SQLite table with a UNIQUE constraint on `title`.  JSON
values, the request decoder `parseInput`, the table operations, and the five
operation handlers are translated into executable Lean functions; the theorems
below settle the frozen claims about them.
-/

namespace NotesApp

/-- JSON-like values, as produced by `JSON.parse` on request bodies and the
`input` query parameter. -/
inductive Json where
  | null
  | bool (b : Bool)
  | num (n : Int)
  | str (s : String)
  | arr (elems : List Json)
  | obj (fields : List (String × Json))

/-- JavaScript truthiness of a JSON value (`null`, `false`, `0`, `""` are
falsy; arrays and objects are always truthy). -/
def truthy : Json → Bool
  | .null => false
  | .bool b => b
  | .num n => n != 0
  | .str s => !s.isEmpty
  | .arr _ => true
  | .obj _ => true

/-- Whether `typeof v === 'object'` holds in JavaScript (true for objects,
arrays and `null`). -/
def isObjectType : Json → Bool
  | .null => true
  | .arr _ => true
  | .obj _ => true
  | _ => false

/-- JavaScript property access `v[k]`: `none` models `undefined`.  Objects
look the key up; arrays answer canonical numeric indices; primitives have no
own properties relevant here. -/
def getField : Json → String → Option Json
  | .obj fields, k => fields.lookup k
  | .arr elems, k =>
    match k.toNat? with
    | some i => if toString i == k then elems[i]? else none
    | none => none
  | _, _ => none

/-- Property access that also demands the value be truthy, mirroring guard
chains such as `!data.input || !data.input.noteId`. -/
def truthyField (j : Json) (k : String) : Option Json :=
  match getField j k with
  | some v => if truthy v then some v else none
  | none => none

/-- Whether the character list `l` starts with the pattern `pat`. -/
def startsWith : List Char → List Char → Bool
  | _, [] => true
  | [], _ :: _ => false
  | c :: cs, p :: ps => c == p && startsWith cs ps

/-- Whether the character list `l` contains the pattern `pat` contiguously. -/
def charsContain : List Char → List Char → Bool
  | [], pat => pat.isEmpty
  | c :: cs, pat => startsWith (c :: cs) pat || charsContain cs pat

/-- JavaScript `s.includes(pat)`, used for the content-type check and for
recognising `UNIQUE constraint failed` in storage error messages. -/
def strIncludes (s pat : String) : Bool :=
  charsContain s.toList pat.toList

/-- HTTP methods that can reach the handlers (`OPTIONS` is answered by the
CORS preflight branch before dispatch, but is included for completeness). -/
inductive Method where
  | GET | POST | PUT | DELETE | PATCH | HEAD | OPTIONS
deriving DecidableEq, Repr

/-- An HTTP request as seen by the handlers.  `inputParam` models the `input`
query parameter: `none` = absent, `some none` = present but not valid JSON,
`some (some j)` = parses to `j`.  `body` models `await request.json()`:
`none` = the body is not valid JSON. -/
structure Request where
  method : Method
  batch : Bool
  inputParam : Option (Option Json)
  contentType : Option String
  body : Option Json

/-- The raw decode stage of `parseInput`: GET reads the `input` query
parameter, POST reads a JSON body when the declared content type includes
`application/json`; every failure (absent or unparseable parameter,
unparseable body, wrong content type, unsupported method) yields `none`,
which the caller turns into the empty payload. -/
def decodeRaw (r : Request) : Option Json :=
  match r.method with
  | .GET =>
    match r.inputParam with
    | none => none
    | some none => none
    | some (some j) => some j
  | .POST =>
    if strIncludes (r.contentType.getD "") "application/json" then r.body else none
  | _ => none

/-- The payload produced when decoding fails or the parameter is absent:
`{ input: {} }`. -/
def emptyPayload : Json := .obj [("input", .obj [])]

/-- `parseInput` from the source: decode the raw value, unwrap a batch
envelope keyed by `"0"` when batch mode is on, keep a value that already has
an `input` field, and otherwise wrap it as `{ input: raw }`. -/
def parseInput (r : Request) : Json :=
  match decodeRaw r with
  | none => emptyPayload
  | some raw =>
    match (if r.batch && truthy raw && isObjectType raw then getField raw "0" else none) with
    | some v => .obj [("input", v)]
    | none =>
      if truthy raw && (getField raw "input").isSome then raw
      else .obj [("input", raw)]

/-- A stored row of the `notes` table.  `category` is the nullable TEXT
column; `published` is the BOOLEAN-as-INTEGER column (the code only ever
stores 0 or 1). -/
structure Row where
  id : String
  title : String
  content : String
  category : Option String
  published : Int
  createdAt : String
  updatedAt : String
deriving DecidableEq, Repr

/-- The `notes` table, in insertion (rowid) order. -/
abbrev NotesTable := List Row

/-- `titleExists`: `SELECT COUNT(*) FROM notes WHERE title = ?` compared
against zero (case-sensitive TEXT equality). -/
def titleExists (st : NotesTable) (t : String) : Bool :=
  st.any (fun row => row.title == t)

/-- `INSERT INTO notes ...`: fails with a `UNIQUE constraint failed` message
when the primary key `id` or the UNIQUE column `title` collides, otherwise
appends the row. -/
def insertNote (st : NotesTable) (row : Row) : Except String NotesTable :=
  if st.any (fun q => q.id == row.id) then
    .error "UNIQUE constraint failed: notes.id"
  else if st.any (fun q => q.title == row.title) then
    .error "UNIQUE constraint failed: notes.title"
  else
    .ok (st ++ [row])

/-- The TEXT value a bound JSON parameter compares equal to under the `id`
column's TEXT affinity: strings as themselves, numbers via their decimal
rendering, other values match nothing. -/
def jsonIdStr : Json → Option String
  | .str s => some s
  | .num n => some (toString n)
  | _ => none

/-- `SELECT * FROM notes WHERE id = ?`, in table scan order. -/
def rowsById (st : NotesTable) (idJ : Json) : List Row :=
  st.filter (fun row => jsonIdStr idJ == some row.id)

/-- Cloudflare's `.one()`: exactly one row, otherwise a storage error. -/
def oneRow : List Row → Except String Row
  | [row] => .ok row
  | _ => .error "Error: exec must return exactly one row"

/-- Insert a row into a list sorted by `createdAt` descending, keeping the
insertion stable for equal keys. -/
def insertDesc (row : Row) : List Row → List Row
  | [] => [row]
  | q :: rest =>
    if q.createdAt < row.createdAt then row :: q :: rest
    else q :: insertDesc row rest

/-- `ORDER BY createdAt DESC` over the whole table (ISO-8601 text timestamps
compare lexicographically). -/
def sortByCreatedDesc : NotesTable → List Row
  | [] => []
  | row :: rest => insertDesc row (sortByCreatedDesc rest)

/-- The API-level note produced by `mapSqliteRow`: `category` collapses NULL
and the empty string to `undefined`, `published` becomes a real boolean. -/
structure ApiNote where
  id : String
  title : String
  content : String
  category : Option String
  published : Bool
  createdAt : String
  updatedAt : String
deriving DecidableEq, Repr

/-- `mapSqliteRow` from the source. -/
def mapSqliteRow (row : Row) : ApiNote :=
  { id := row.id
    title := row.title
    content := row.content
    category :=
      match row.category with
      | some c => if c.isEmpty then none else some c
      | none => none
    published := row.published == 1
    createdAt := row.createdAt
    updatedAt := row.updatedAt }

/-- A handler outcome: one success shape per endpoint, or an error carrying
the tRPC code, message and HTTP status used at the corresponding call site. -/
inductive Result where
  | okCreate (note : ApiNote)
  | okNote (note : ApiNote)
  | okNotes (results : Nat) (notes : List ApiNote)
  | okDelete
  | err (code : String) (message : String) (status : Nat)
deriving DecidableEq, Repr

/-- Whether a result is a `BAD_REQUEST` error envelope. -/
def isBadRequest : Result → Bool
  | .err code _ _ => code == "BAD_REQUEST"
  | _ => false

/-- The payload accepted by `createNoteSchema`. -/
structure CreateInput where
  title : String
  content : String
  category : Option String
  published : Option Bool
deriving DecidableEq, Repr

/-- The payload accepted by `updateNoteSchema` (all fields optional). -/
structure UpdateInput where
  title : Option String
  content : Option String
  category : Option String
  published : Option Bool
deriving DecidableEq, Repr

/-- Zod `z.string().optional()`: absent is fine, a present value must be a
string.  `some none` = absent, `some (some s)` = present string, `none` =
validation failure. -/
def parseOptString (fields : List (String × Json)) (k : String) : Option (Option String) :=
  match fields.lookup k with
  | none => some none
  | some (.str s) => some (some s)
  | some _ => none

/-- Zod `z.boolean().optional()`. -/
def parseOptBool (fields : List (String × Json)) (k : String) : Option (Option Bool) :=
  match fields.lookup k with
  | none => some none
  | some (.bool b) => some (some b)
  | some _ => none

/-- `createNoteSchema.parse`: an object with required string `title` and
`content`, optional string `category`, optional boolean `published`; unknown
fields are ignored; anything else is a `ZodError` (`none`). -/
def createNoteSchemaParse : Json → Option CreateInput
  | .obj fields =>
    match fields.lookup "title", fields.lookup "content",
          parseOptString fields "category", parseOptBool fields "published" with
    | some (.str t), some (.str c), some cat, some pub => some ⟨t, c, cat, pub⟩
    | _, _, _, _ => none
  | _ => none

/-- `updateNoteSchema.parse`: all four fields optional, type-checked when
present. -/
def updateNoteSchemaParse : Json → Option UpdateInput
  | .obj fields =>
    match parseOptString fields "title", parseOptString fields "content",
          parseOptString fields "category", parseOptBool fields "published" with
    | some t, some c, some cat, some pub => some ⟨t, c, cat, pub⟩
    | _, _, _, _ => none
  | _ => none

/-- JavaScript `x || d`: keep a truthy value, otherwise the default (also the
default when the property was absent). -/
def jsOr (j : Option Json) (d : Json) : Json :=
  match j with
  | some v => if truthy v then v else d
  | none => d

/-- An exact rational `n / d` with positive denominator, modelling a finite
JavaScript number (the model computes exactly, abstracting from IEEE-754
rounding). -/
structure JsNum where
  n : Int
  d : Nat
deriving DecidableEq, Repr

/-- The ASCII whitespace both JavaScript's `Number()` and SQLite's text
conversion skip around a numeral (space, tab, LF, VT, FF, CR). -/
def isWs (c : Char) : Bool :=
  c == ' ' || c == '\t' || c == '\n' || c == '\r' ||
  c == Char.ofNat 11 || c == Char.ofNat 12

/-- Strip leading and trailing whitespace from a character list. -/
def trimWsList (l : List Char) : List Char :=
  ((l.dropWhile isWs).reverse.dropWhile isWs).reverse

/-- Consume a run of decimal digits, extending the accumulated value and
digit count, and return the remaining characters. -/
def digitsRun : List Char → Nat → Nat → Nat × Nat × List Char
  | [], acc, cnt => (acc, cnt, [])
  | c :: cs, acc, cnt =>
    if c.isDigit then digitsRun cs (acc * 10 + (c.toNat - 48)) (cnt + 1)
    else (acc, cnt, c :: cs)

/-- Parse the optional exponent tail of a numeral (`e`/`E`, optional sign,
digits); the empty tail means exponent 0, anything else is rejected. -/
def parseExp : List Char → Option Int
  | [] => some 0
  | c :: cs =>
    if c == 'e' || c == 'E' then
      match cs with
      | [] => none
      | d :: ds =>
        let sgn : Int := if d == '-' then -1 else 1
        let rest := if d == '-' || d == '+' then ds else d :: ds
        match digitsRun rest 0 0 with
        | (v, cnt, []) => if cnt == 0 then none else some (sgn * (v : Int))
        | _ => none
    else none

/-- The exact value `±mant · 10^(exp - fracLen)` of a parsed numeral, as a
`JsNum`. -/
def numOfParts (neg : Bool) (mant fracLen : Nat) (exp : Int) : JsNum :=
  let sgnMant : Int := if neg then -(mant : Int) else (mant : Int)
  let e : Int := exp - (fracLen : Int)
  if 0 ≤ e then ⟨sgnMant * 10 ^ e.toNat, 1⟩
  else ⟨sgnMant, 10 ^ (-e).toNat⟩

/-- The exact value of decimal numeric text: optional surrounding whitespace,
optional sign, digits with an optional fraction part (at least one digit in
total) and an optional exponent.  This is the common decimal grammar of
JavaScript's `Number()` and SQLite's text-to-numeric conversion; `none` means
the text is not numeric. -/
def numOfText (s : String) : Option JsNum :=
  match trimWsList s.toList with
  | [] => none
  | c :: cs =>
    let neg := c == '-'
    let rest := if c == '-' || c == '+' then cs else c :: cs
    match digitsRun rest 0 0 with
    | (iv, icnt, rest2) =>
      match rest2 with
      | '.' :: rest3 =>
        match digitsRun rest3 iv 0 with
        | (mant, fcnt, rest4) =>
          if icnt + fcnt == 0 then none
          else (parseExp rest4).map (fun ex => numOfParts neg mant fcnt ex)
      | _ =>
        if icnt == 0 then none
        else (parseExp rest2).map (fun ex => numOfParts neg iv 0 ex)

/-- The value of a hexadecimal digit, if any. -/
def hexDigit (c : Char) : Option Nat :=
  if c.isDigit then some (c.toNat - 48)
  else if 97 ≤ c.toNat && c.toNat ≤ 102 then some (c.toNat - 87)
  else if 65 ≤ c.toNat && c.toNat ≤ 70 then some (c.toNat - 55)
  else none

/-- Accumulate digits in the given radix (2, 8 or 16); any other character
rejects the numeral. -/
def radixRun (radix : Nat) : List Char → Nat → Option Nat
  | [], acc => some acc
  | c :: cs, acc =>
    match hexDigit c with
    | some d => if d < radix then radixRun radix cs (acc * radix + d) else none
    | none => none

/-- JavaScript `Number(string)`: trimmed-empty text is 0, `0x`/`0b`/`0o`
prefixes select the corresponding radix, everything else is decimal numeric
text; `none` is `NaN` (or a non-finite value such as `Infinity`, which the
statement binding equally rejects). -/
def jsStrNum (s : String) : Option JsNum :=
  match trimWsList s.toList with
  | [] => some ⟨0, 1⟩
  | '0' :: x :: r :: rest =>
    if x == 'x' || x == 'X' then
      (radixRun 16 (r :: rest) 0).map (fun v => ⟨(v : Int), 1⟩)
    else if x == 'b' || x == 'B' then
      (radixRun 2 (r :: rest) 0).map (fun v => ⟨(v : Int), 1⟩)
    else if x == 'o' || x == 'O' then
      (radixRun 8 (r :: rest) 0).map (fun v => ⟨(v : Int), 1⟩)
    else numOfText s
  | _ => numOfText s

/-- JavaScript `String(v)` for an array element chain, when that text can
still be numeric: `null` and the empty array give the empty string, numbers
their decimal rendering, strings themselves, a one-element array the text of
its element; booleans, plain objects and arrays of two or more elements
produce text (`"true"`, `"[object Object]"`, a comma join) that can never be
numeric, answered by `none`. -/
def jsArrText : Json → Option String
  | .null => some ""
  | .num n => some (toString n)
  | .str s => some s
  | .arr [] => some ""
  | .arr [x] => jsArrText x
  | _ => none

/-- JavaScript numeric coercion `Number(v)` as applied by the arithmetic in
`(page - 1) * limit`: `none` is `NaN`. -/
def jsNumber : Json → Option JsNum
  | .num n => some ⟨n, 1⟩
  | .bool b => some ⟨if b then 1 else 0, 1⟩
  | .null => some ⟨0, 1⟩
  | .str s => jsStrNum s
  | .obj _ => none
  | .arr xs => (jsArrText (.arr xs)).bind jsStrNum

/-- A value bound directly as a SQL `LIMIT` argument: integers as themselves
and text that SQLite converts losslessly to an integer (decimal numeric text
denoting an integer value); anything else makes the statement fail.  The
int64 range is abstracted away, as everywhere in this model. -/
def sqlIntArg : Json → Option Int
  | .num n => some n
  | .str s =>
    match numOfText s with
    | some q => if q.n % (q.d : Int) == 0 then some (q.n / (q.d : Int)) else none
    | none => none
  | _ => none

/-- The row assembled by `createNote` before `INSERT`: `input.category || null`
turns both an absent and an empty-string category into NULL, `published ? 1 : 0`
turns the optional boolean into 0/1, and both timestamps are set to `now`. -/
def newRow (input : CreateInput) (freshId now : String) : Row :=
  { id := freshId
    title := input.title
    content := input.content
    category :=
      match input.category with
      | some c => if c.isEmpty then none else some c
      | none => none
    published :=
      match input.published with
      | some true => 1
      | _ => 0
    createdAt := now
    updatedAt := now }

/-- `createNote`: POST only, payload-shape gate, schema validation, title
pre-check, INSERT with the constraint violation mapped to `CONFLICT`, then a
read-back of the stored row. -/
def createNote (st : NotesTable) (r : Request) (freshId now : String) :
    Result × NotesTable :=
  if r.method != Method.POST then
    (.err "METHOD_NOT_SUPPORTED" "Method not allowed" 405, st)
  else
    match getField (parseInput r) "input" with
    | none => (.err "BAD_REQUEST" "Invalid request format" 400, st)
    | some inputJ =>
      if !(truthy inputJ && isObjectType inputJ) then
        (.err "BAD_REQUEST" "Invalid request format" 400, st)
      else
        match createNoteSchemaParse inputJ with
        | none => (.err "BAD_REQUEST" "Validation error" 400, st)
        | some input =>
          if titleExists st input.title then
            (.err "CONFLICT" "Note with that title already exists" 409, st)
          else
            match insertNote st (newRow input freshId now) with
            | .error msg =>
              if strIncludes msg "UNIQUE constraint failed" then
                (.err "CONFLICT" "Note with that title already exists" 409, st)
              else
                (.err "INTERNAL_SERVER_ERROR" msg 500, st)
            | .ok st2 =>
              match oneRow (rowsById st2 (.str freshId)) with
              | .error msg => (.err "INTERNAL_SERVER_ERROR" msg 500, st2)
              | .ok found => (.okCreate (mapSqliteRow found), st2)

/-- `applyUpdate`: the effect of the dynamically built `UPDATE ... SET` on one
row — exactly the fields present in the payload, plus `updatedAt`. -/
def applyUpdate (upd : UpdateInput) (now : String) (row : Row) : Row :=
  { row with
    title := upd.title.getD row.title
    content := upd.content.getD row.content
    category :=
      match upd.category with
      | some c => some c
      | none => row.category
    published :=
      match upd.published with
      | some b => if b then 1 else 0
      | none => row.published
    updatedAt := now }

/-- The state after `UPDATE notes SET ... WHERE id = ?`. -/
def updateTargets (nidJ : Json) (upd : UpdateInput) (now : String)
    (st : NotesTable) : NotesTable :=
  st.map (fun row => if jsonIdStr nidJ == some row.id then applyUpdate upd now row else row)

/-- The tail of `updateNote` once all checks passed: run the UPDATE, read the
row back with `.one()`, and format it. -/
def finishUpdate (st : NotesTable) (nidJ : Json) (upd : UpdateInput)
    (now : String) : Result × NotesTable :=
  match oneRow (rowsById (updateTargets nidJ upd now st) nidJ) with
  | .ok found => (.okNote (mapSqliteRow found), updateTargets nidJ upd now st)
  | .error msg => (.err "INTERNAL_SERVER_ERROR" msg 500, updateTargets nidJ upd now st)

/-- `updateNote`: POST only, `input.params.noteId` required (truthy), body
defaulted to `{}` when absent or falsy, schema validation, existence check,
changed-title conflict check against the current title, then the UPDATE. -/
def updateNote (st : NotesTable) (r : Request) (now : String) :
    Result × NotesTable :=
  if r.method != Method.POST then
    (.err "METHOD_NOT_SUPPORTED" "Method not allowed" 405, st)
  else
    match truthyField (parseInput r) "input" with
    | none => (.err "BAD_REQUEST" "Invalid request format: missing noteId" 400, st)
    | some inputJ =>
      match truthyField inputJ "params" with
      | none => (.err "BAD_REQUEST" "Invalid request format: missing noteId" 400, st)
      | some paramsJ =>
        match truthyField paramsJ "noteId" with
        | none => (.err "BAD_REQUEST" "Invalid request format: missing noteId" 400, st)
        | some nidJ =>
          match updateNoteSchemaParse (jsOr (getField inputJ "body") (.obj [])) with
          | none => (.err "BAD_REQUEST" "Validation error" 400, st)
          | some upd =>
            if (rowsById st nidJ).isEmpty then
              (.err "NOT_FOUND" "Note with that ID not found" 404, st)
            else
              match upd.title with
              | some newTitle =>
                match oneRow (rowsById st nidJ) with
                | .error msg => (.err "INTERNAL_SERVER_ERROR" msg 500, st)
                | .ok cur =>
                  if newTitle != cur.title && titleExists st newTitle then
                    (.err "CONFLICT" "Note with that title already exists" 409, st)
                  else
                    finishUpdate st nidJ upd now
              | none => finishUpdate st nidJ upd now

/-- `getNote`: any method, `input.noteId` required (truthy), `NOT_FOUND` when
no row matches, otherwise the first matching row. -/
def getNote (st : NotesTable) (r : Request) : Result :=
  match truthyField (parseInput r) "input" with
  | none => .err "BAD_REQUEST" "Invalid request format: missing noteId" 400
  | some inputJ =>
    match truthyField inputJ "noteId" with
    | none => .err "BAD_REQUEST" "Invalid request format: missing noteId" 400
    | some nidJ =>
      match (rowsById st nidJ).head? with
      | none => .err "NOT_FOUND" "Note with that ID not found" 404
      | some row => .okNote (mapSqliteRow row)

/-- The `SELECT * FROM notes ORDER BY createdAt DESC LIMIT ? OFFSET ?` step of
`getNotes`.  The offset is the JS number `(page - 1) * limit`, computed here
exactly as the fraction `offN / offD`; binding it requires an integer (a NaN
operand or a non-integer value fails the statement), and a negative offset is
clamped to zero by SQLite, hence `Int.toNat`.  The limit is bound as-is:
negative means no bound, a value SQLite cannot convert losslessly fails the
statement. -/
def runNotesQuery (st : NotesTable) (pageJ limitJ : Json) : Result :=
  match jsNumber pageJ, jsNumber limitJ, sqlIntArg limitJ with
  | some p, some lNum, some lSql =>
    let offN := (p.n - (p.d : Int)) * lNum.n
    let offD : Int := ((p.d * lNum.d : Nat) : Int)
    if offN % offD == 0 then
      let afterOffset := (sortByCreatedDesc st).drop (offN / offD).toNat
      let rows := if lSql < 0 then afterOffset else afterOffset.take lSql.toNat
      .okNotes rows.length (rows.map mapSqliteRow)
    else .err "INTERNAL_SERVER_ERROR" "SQL argument error" 500
  | _, _, _ => .err "INTERNAL_SERVER_ERROR" "SQL argument error" 500

/-- `getNotes`: any method, `page` and `limit` default to 1 and 10 when absent
or falsy (`data.input?.page || 1`), then the paged query.  No schema
validation is performed: `filterQuerySchema` is never applied. -/
def getNotes (st : NotesTable) (r : Request) : Result :=
  match getField (parseInput r) "input" with
  | none => runNotesQuery st (.num 1) (.num 10)
  | some inputJ =>
    runNotesQuery st (jsOr (getField inputJ "page") (.num 1))
      (jsOr (getField inputJ "limit") (.num 10))

/-- `deleteNote`: POST only, `input.noteId` required (truthy), existence
check, then `DELETE FROM notes WHERE id = ?`. -/
def deleteNote (st : NotesTable) (r : Request) : Result × NotesTable :=
  if r.method != Method.POST then
    (.err "METHOD_NOT_SUPPORTED" "Method not allowed" 405, st)
  else
    match truthyField (parseInput r) "input" with
    | none => (.err "BAD_REQUEST" "Invalid request format: missing noteId" 400, st)
    | some inputJ =>
      match truthyField inputJ "noteId" with
      | none => (.err "BAD_REQUEST" "Invalid request format: missing noteId" 400, st)
      | some nidJ =>
        if (rowsById st nidJ).isEmpty then
          (.err "NOT_FOUND" "Note with that ID not found" 404, st)
        else
          (.okDelete, st.filter (fun row => !(jsonIdStr nidJ == some row.id)))

/-- A state-changing request: the three mutating endpoints, with the
server-generated id and timestamp as explicit inputs. -/
inductive Op where
  | create (r : Request) (freshId now : String)
  | update (r : Request) (now : String)
  | delete (r : Request)

/-- Run one operation against the table, keeping the resulting state. -/
def runOp (st : NotesTable) : Op → NotesTable
  | .create r freshId now => (createNote st r freshId now).2
  | .update r now => (updateNote st r now).2
  | .delete r => (deleteNote st r).2

/-- Run a sequence of operations starting from the empty table. -/
def runOps (ops : List Op) : NotesTable :=
  ops.foldl runOp []

/-- The store invariant: primary keys and titles are both duplicate-free. -/
def notesInv (st : NotesTable) : Prop :=
  (st.map (fun row => row.id)).Nodup ∧ (st.map (fun row => row.title)).Nodup

/-- A helper request: POST with a JSON body. -/
def mkPostReq (j : Json) : Request :=
  { method := .POST
    batch := false
    inputParam := none
    contentType := some "application/json"
    body := some j }

/-- A helper request: GET with the `input` query parameter set to `j`. -/
def mkGetReq (j : Json) : Request :=
  { method := .GET
    batch := false
    inputParam := some (some j)
    contentType := none
    body := none }

/-- The wire shape of an update call:
`{ input: { params: { noteId }, body } }`. -/
def updPayload (nid : String) (b : Json) : Json :=
  .obj [("input", .obj [("params", .obj [("noteId", .str nid)]), ("body", b)])]

/-- The slice of the descending-ordered table selected by page `p` and
limit `l`. -/
def pageSlice (st : NotesTable) (p l : Int) : List Row :=
  ((sortByCreatedDesc st).drop ((p - 1) * l).toNat).take l.toNat

/-! ## Supporting lemmas -/

theorem insertNote_ok {st : NotesTable} {row : Row} {st2 : NotesTable}
    (h : insertNote st row = .ok st2) :
    st2 = st ++ [row] ∧ (∀ q ∈ st, q.id ≠ row.id) ∧ (∀ q ∈ st, q.title ≠ row.title) := by
  unfold insertNote at h
  split at h
  · exact absurd h (by simp)
  · split at h
    · exact absurd h (by simp)
    · rename_i h1 h2
      simp only [List.any_eq_true, beq_iff_eq, not_exists, not_and] at h1 h2
      refine ⟨?_, ?_, ?_⟩
      · injection h with h
        exact h.symm
      · intro q hq
        exact h1 q hq
      · intro q hq
        exact h2 q hq

theorem notesInv_insert {st : NotesTable} {row : Row} {st2 : NotesTable}
    (hinv : notesInv st) (h : insertNote st row = .ok st2) : notesInv st2 := by
  obtain ⟨heq, hid, htitle⟩ := insertNote_ok h
  subst heq
  constructor
  · rw [List.map_append, List.nodup_append]
    refine ⟨hinv.1, List.nodup_singleton _, ?_⟩
    intro x hx hx2
    simp only [List.mem_map] at hx
    obtain ⟨q, hq, hqe⟩ := hx
    simp only [List.map_cons, List.map_nil, List.mem_singleton] at hx2
    exact hid q hq (hqe ▸ hx2)
  · rw [List.map_append, List.nodup_append]
    refine ⟨hinv.2, List.nodup_singleton _, ?_⟩
    intro x hx hx2
    simp only [List.mem_map] at hx
    obtain ⟨q, hq, hqe⟩ := hx
    simp only [List.map_cons, List.map_nil, List.mem_singleton] at hx2
    exact htitle q hq (hqe ▸ hx2)

theorem nodup_update_titles (l : List Row) (pred : Row → Bool) (nt : String)
    (hpred : ∀ p q : Row, pred p = true → pred q = true → p.id = q.id)
    (hids : (l.map (fun row => row.id)).Nodup)
    (htitles : (l.map (fun row => row.title)).Nodup)
    (hfresh : ∀ q ∈ l, q.title ≠ nt) :
    (l.map (fun row => if pred row then nt else row.title)).Nodup := by
  induction l with
  | nil => simp
  | cons q rest ih =>
    simp only [List.map_cons, List.nodup_cons, List.mem_map] at hids htitles ⊢
    refine ⟨?_, ih hids.2 htitles.2 (fun x hx => hfresh x (List.mem_cons_of_mem _ hx))⟩
    rintro ⟨p, hp, hpe⟩
    by_cases hq : pred q = true
    · rw [if_pos hq] at hpe
      by_cases hpp : pred p = true
      · exact hids.1 ⟨p, hp, hpred p q hpp hq⟩
      · rw [if_neg hpp] at hpe
        exact hfresh p (List.mem_cons_of_mem _ hp) hpe
    · rw [if_neg hq] at hpe
      by_cases hpp : pred p = true
      · rw [if_pos hpp] at hpe
        exact hfresh q (List.mem_cons_self _ _) hpe.symm
      · rw [if_neg hpp] at hpe
        exact htitles.1 ⟨p, hp, hpe⟩

theorem updateTargets_map_id (nidJ : Json) (upd : UpdateInput) (now : String)
    (st : NotesTable) :
    (updateTargets nidJ upd now st).map (fun row => row.id) =
      st.map (fun row => row.id) := by
  unfold updateTargets
  rw [List.map_map]
  apply List.map_congr_left
  intro a _
  by_cases h : jsonIdStr nidJ = some a.id
  · simp [h, applyUpdate]
  · simp [h]

theorem updateTargets_map_title (nidJ : Json) (upd : UpdateInput) (now : String)
    (st : NotesTable) :
    (updateTargets nidJ upd now st).map (fun row => row.title) =
      st.map (fun row =>
        if jsonIdStr nidJ == some row.id then upd.title.getD row.title else row.title) := by
  unfold updateTargets
  rw [List.map_map]
  apply List.map_congr_left
  intro a _
  by_cases h : jsonIdStr nidJ = some a.id
  · simp [h, applyUpdate]
  · simp [h]

theorem notesInv_updateTargets_none {st : NotesTable} {nidJ : Json}
    {upd : UpdateInput} {now : String}
    (hinv : notesInv st) (ht : upd.title = none) :
    notesInv (updateTargets nidJ upd now st) := by
  constructor
  · rw [updateTargets_map_id]
    exact hinv.1
  · rw [updateTargets_map_title]
    have : (st.map (fun row =>
        if jsonIdStr nidJ == some row.id then upd.title.getD row.title else row.title)) =
        st.map (fun row => row.title) := by
      apply List.map_congr_left
      intro a _
      rw [ht]
      by_cases h : (jsonIdStr nidJ == some a.id) = true <;> simp [h]
    rw [this]
    exact hinv.2

theorem notesInv_updateTargets_some {st : NotesTable} {nidJ : Json}
    {upd : UpdateInput} {now : String} {cur : Row} {nt : String}
    (hinv : notesInv st) (hone : rowsById st nidJ = [cur]) (ht : upd.title = some nt)
    (hcase : nt = cur.title ∨ titleExists st nt = false) :
    notesInv (updateTargets nidJ upd now st) := by
  have hmem : ∀ q ∈ st, (jsonIdStr nidJ == some q.id) = true → q = cur := by
    intro q hq hqid
    have : q ∈ rowsById st nidJ := by
      unfold rowsById
      exact List.mem_filter.mpr ⟨hq, hqid⟩
    rw [hone] at this
    simpa using this
  constructor
  · rw [updateTargets_map_id]
    exact hinv.1
  · rw [updateTargets_map_title]
    rcases hcase with hsame | hfresh
    · have : (st.map (fun row =>
          if jsonIdStr nidJ == some row.id then upd.title.getD row.title else row.title)) =
          st.map (fun row => row.title) := by
        apply List.map_congr_left
        intro a ha
        by_cases h : (jsonIdStr nidJ == some a.id) = true
        · rw [if_pos h, ht]
          have := hmem a ha h
          subst this
          simp [hsame.symm]
        · rw [if_neg h]
      rw [this]
      exact hinv.2
    · have hnofresh : ∀ q ∈ st, q.title ≠ nt := by
        intro q hq
        unfold titleExists at hfresh
        intro he
        have : st.any (fun row => row.title == nt) = true :=
          List.any_eq_true.mpr ⟨q, hq, beq_iff_eq.mpr he⟩
        rw [hfresh] at this
        exact Bool.false_ne_true this
      have heq : (st.map (fun row =>
          if jsonIdStr nidJ == some row.id then upd.title.getD row.title else row.title)) =
          st.map (fun row =>
            if (fun row : Row => jsonIdStr nidJ == some row.id) row then nt else row.title) := by
        apply List.map_congr_left
        intro a _
        rw [ht]
        rfl
      rw [heq]
      apply nodup_update_titles st (fun row => jsonIdStr nidJ == some row.id) nt
        ?_ hinv.1 hinv.2 hnofresh
      intro p q hp hq
      have hp' := beq_iff_eq.mp hp
      have hq' := beq_iff_eq.mp hq
      have := hp'.symm.trans hq'
      simpa using this

theorem notesInv_filter {st : NotesTable} (hinv : notesInv st) (pred : Row → Bool) :
    notesInv (st.filter pred) := by
  constructor
  · exact hinv.1.sublist ((List.filter_sublist st).map _)
  · exact hinv.2.sublist ((List.filter_sublist st).map _)

theorem notesInv_create {st : NotesTable} (r : Request) (freshId now : String)
    (hinv : notesInv st) : notesInv ((createNote st r freshId now).2) := by
  unfold createNote
  split
  · exact hinv
  · split
    · exact hinv
    · split
      · exact hinv
      · split
        · exact hinv
        · split
          · exact hinv
          · split
            · split
              · exact hinv
              · exact hinv
            · rename_i st2 hins
              split
              · exact notesInv_insert hinv hins
              · exact notesInv_insert hinv hins

theorem rowsById_singleton_of_oneRow {st : NotesTable} {nidJ : Json} {cur : Row}
    (h : oneRow (rowsById st nidJ) = .ok cur) : rowsById st nidJ = [cur] := by
  unfold oneRow at h
  split at h
  · rename_i heq
    injection h with h
    rw [heq, h]
  · exact absurd h (by simp)

theorem notesInv_finishUpdate_none {st : NotesTable} {nidJ : Json}
    {upd : UpdateInput} {now : String}
    (hinv : notesInv st) (ht : upd.title = none) :
    notesInv ((finishUpdate st nidJ upd now).2) := by
  unfold finishUpdate
  split
  · exact notesInv_updateTargets_none hinv ht
  · exact notesInv_updateTargets_none hinv ht

theorem notesInv_finishUpdate_some {st : NotesTable} {nidJ : Json}
    {upd : UpdateInput} {now : String} {cur : Row} {nt : String}
    (hinv : notesInv st) (hone : rowsById st nidJ = [cur]) (ht : upd.title = some nt)
    (hcase : nt = cur.title ∨ titleExists st nt = false) :
    notesInv ((finishUpdate st nidJ upd now).2) := by
  unfold finishUpdate
  split
  · exact notesInv_updateTargets_some hinv hone ht hcase
  · exact notesInv_updateTargets_some hinv hone ht hcase

theorem notesInv_update {st : NotesTable} (r : Request) (now : String)
    (hinv : notesInv st) : notesInv ((updateNote st r now).2) := by
  unfold updateNote
  split
  · exact hinv
  · split
    · exact hinv
    · split
      · exact hinv
      · split
        · exact hinv
        · split
          · exact hinv
          · split
            · exact hinv
            · split
              · rename_i upd nidJ newTitle htitle
                split
                · exact hinv
                · rename_i cur hcur
                  split
                  · exact hinv
                  · rename_i hguard
                    have hone := rowsById_singleton_of_oneRow hcur
                    have hcase : newTitle = cur.title ∨ titleExists st newTitle = false := by
                      rcases Bool.and_eq_false_iff.mp (Bool.not_eq_true _ ▸ hguard) with hne | hex
                      · left
                        have : (newTitle != cur.title) = false := hne
                        simpa [bne] using this
                      · right
                        exact hex
                    exact notesInv_finishUpdate_some hinv hone htitle hcase
              · rename_i htitle
                exact notesInv_finishUpdate_none hinv htitle

theorem notesInv_delete {st : NotesTable} (r : Request)
    (hinv : notesInv st) : notesInv ((deleteNote st r).2) := by
  unfold deleteNote
  split
  · exact hinv
  · split
    · exact hinv
    · split
      · exact hinv
      · split
        · exact hinv
        · exact notesInv_filter hinv _

theorem notesInv_runOp {st : NotesTable} (op : Op) (hinv : notesInv st) :
    notesInv (runOp st op) := by
  cases op with
  | create r freshId now => exact notesInv_create r freshId now hinv
  | update r now => exact notesInv_update r now hinv
  | delete r => exact notesInv_delete r hinv

theorem notesInv_foldl (ops : List Op) :
    ∀ st : NotesTable, notesInv st → notesInv (ops.foldl runOp st) := by
  induction ops with
  | nil => exact fun st h => h
  | cons op rest ih =>
    intro st h
    exact ih _ (notesInv_runOp op h)

theorem notesInv_runOps (ops : List Op) : notesInv (runOps ops) := by
  unfold runOps
  exact notesInv_foldl ops [] (by constructor <;> simp)

theorem mem_insertDesc {row x : Row} : ∀ {l : List Row},
    x ∈ insertDesc row l ↔ x = row ∨ x ∈ l := by
  intro l
  induction l with
  | nil => simp [insertDesc]
  | cons q rest ih =>
    unfold insertDesc
    split
    · simp [List.mem_cons]
    · simp only [List.mem_cons, ih]
      tauto

theorem pairwise_insertDesc {row : Row} {l : List Row}
    (h : l.Pairwise (fun a b => b.createdAt ≤ a.createdAt)) :
    (insertDesc row l).Pairwise (fun a b => b.createdAt ≤ a.createdAt) := by
  induction l with
  | nil => simp [insertDesc]
  | cons q rest ih =>
    rw [List.pairwise_cons] at h
    unfold insertDesc
    split
    · rename_i hlt
      rw [List.pairwise_cons]
      constructor
      · intro b hb
        rcases List.mem_cons.mp hb with hb | hb
        · exact hb ▸ le_of_lt hlt
        · exact le_trans (h.1 b hb) (le_of_lt hlt)
      · exact List.pairwise_cons.mpr h
    · rename_i hge
      rw [List.pairwise_cons]
      constructor
      · intro b hb
        rcases mem_insertDesc.mp hb with hb | hb
        · exact hb ▸ le_of_not_lt hge
        · exact h.1 b hb
      · exact ih h.2

theorem pairwise_sortByCreatedDesc (st : NotesTable) :
    (sortByCreatedDesc st).Pairwise (fun a b => b.createdAt ≤ a.createdAt) := by
  induction st with
  | nil => simp [sortByCreatedDesc]
  | cons row rest ih => exact pairwise_insertDesc ih

theorem createNoteSchemaParse_shape {j : Json} {ci : CreateInput}
    (h : createNoteSchemaParse j = some ci) :
    truthy j = true ∧ isObjectType j = true := by
  cases j <;> simp [createNoteSchemaParse] at h ⊢
  simp [truthy, isObjectType]

theorem parseInput_mkPostReq_wrap (j : Json)
    (h : (getField j "input").isSome = false) :
    parseInput (mkPostReq j) = .obj [("input", j)] := by
  unfold parseInput mkPostReq decodeRaw
  simp only []
  have hct : strIncludes (Option.getD (some "application/json") "") "application/json" = true := by
    decide
  rw [hct]
  simp only [Bool.false_and, if_true]
  cases hj : truthy j
  · simp [h, hj]
  · simp [h, hj]

theorem parseInput_mkPostReq_keep (j : Json)
    (ht : truthy j = true) (h : (getField j "input").isSome = true) :
    parseInput (mkPostReq j) = j := by
  unfold parseInput mkPostReq decodeRaw
  simp only []
  have hct : strIncludes (Option.getD (some "application/json") "") "application/json" = true := by
    decide
  rw [hct]
  simp [ht, h]

theorem parseInput_mkGetReq_wrap (j : Json)
    (h : (getField j "input").isSome = false) :
    parseInput (mkGetReq j) = .obj [("input", j)] := by
  unfold parseInput mkGetReq decodeRaw
  cases hj : truthy j <;> simp [h, hj]

theorem rowsById_append_fresh {st : NotesTable} {row0 : Row}
    (hfresh : ∀ q ∈ st, q.id ≠ row0.id) :
    rowsById (st ++ [row0]) (.str row0.id) = [row0] := by
  unfold rowsById
  rw [List.filter_append]
  have h1 : st.filter (fun row => jsonIdStr (.str row0.id) == some row.id) = [] := by
    rw [List.filter_eq_nil_iff]
    intro a ha
    simp only [jsonIdStr, Option.some.injEq, beq_iff_eq]
    exact fun he => hfresh a ha he.symm
  rw [h1]
  simp [jsonIdStr]

/-! ## Claims -/

/-- C1: Title uniqueness is an invariant: starting from the empty store, after
any sequence of create/update/delete operations no two live notes have equal
titles; and a createNote POST whose validated title already exists in the
store returns the CONFLICT error (HTTP status 409) and leaves the store
unchanged — the handler is a total function, so the request never crashes. -/
theorem C1_title_uniqueness :
    (∀ ops : List Op, ((runOps ops).map (fun row => row.title)).Nodup) ∧
    (∀ (st : NotesTable) (r : Request) (freshId now : String)
       (inputJ : Json) (ci : CreateInput),
       r.method = Method.POST →
       getField (parseInput r) "input" = some inputJ →
       createNoteSchemaParse inputJ = some ci →
       titleExists st ci.title = true →
       createNote st r freshId now =
         (.err "CONFLICT" "Note with that title already exists" 409, st)) := by
  constructor
  · exact fun ops => (notesInv_runOps ops).2
  · intro st r freshId now inputJ ci hm hin hparse hex
    obtain ⟨ht, ho⟩ := createNoteSchemaParse_shape hparse
    unfold createNote
    simp [hm, hin, hparse, ht, ho, hex]

def rowC1 : Row :=
  { id := "id1", title := "A", content := "x", category := none,
    published := 0, createdAt := "t1", updatedAt := "t1" }

def reqC1 : Request :=
  mkPostReq (.obj [("input", .obj [("title", .str "A"), ("content", .str "y")])])

theorem C1_witness :
    createNote [rowC1] reqC1 "id2" "t2" =
      (.err "CONFLICT" "Note with that title already exists" 409, [rowC1]) :=
  C1_title_uniqueness.2 [rowC1] reqC1 "id2" "t2"
    (.obj [("title", .str "A"), ("content", .str "y")])
    ⟨"A", "y", none, none⟩ rfl rfl rfl rfl

/-- C2: for every valid create input, creating a note and then immediately
calling getNote with the generated id succeeds and returns the very note the
create response carried (hence identical title, content, category and
published), and the note's createdAt equals its updatedAt. -/
theorem C2_create_roundtrip (st st' : NotesTable) (r : Request)
    (freshId now : String) (n : ApiNote)
    (hid : freshId ≠ "")
    (h : createNote st r freshId now = (.okCreate n, st')) :
    getNote st' (mkGetReq (.obj [("noteId", .str freshId)])) = .okNote n ∧
    n.createdAt = n.updatedAt := by
  unfold createNote at h
  split at h
  · exact absurd h (by simp)
  · split at h
    · exact absurd h (by simp)
    · split at h
      · exact absurd h (by simp)
      · split at h
        · exact absurd h (by simp)
        · rename_i input hparse
          split at h
          · exact absurd h (by simp)
          · split at h
            · split at h
              · exact absurd h (by simp)
              · exact absurd h (by simp)
            · rename_i st2 hins
              split at h
              · exact absurd h (by simp)
              · rename_i found hfound
                have hn : n = mapSqliteRow found := by
                  have := congrArg Prod.fst h
                  simpa using this.symm
                have hst : st' = st2 := by
                  have := congrArg Prod.snd h
                  simpa using this.symm
                obtain ⟨heq2, hidfresh, _⟩ := insertNote_ok hins
                have hrows : rowsById st2 (.str freshId) = [newRow input freshId now] := by
                  rw [heq2]
                  exact rowsById_append_fresh (fun q hq => hidfresh q hq)
                have hfound2 : found = newRow input freshId now := by
                  rw [hrows] at hfound
                  simp only [oneRow] at hfound
                  injection hfound with hfound
                  exact hfound.symm
                have hfe : freshId.isEmpty = false := by
                  cases hs : freshId.isEmpty
                  · rfl
                  · exact absurd ((String.isEmpty_iff freshId).mp hs) hid
                constructor
                · unfold getNote
                  rw [parseInput_mkGetReq_wrap _ (by simp [getField, List.lookup])]
                  have hstep : truthyField
                      (Json.obj [("input", Json.obj [("noteId", Json.str freshId)])])
                      "input" = some (Json.obj [("noteId", Json.str freshId)]) := by
                    simp [truthyField, getField, List.lookup, truthy]
                  have hstep2 : truthyField (Json.obj [("noteId", Json.str freshId)])
                      "noteId" = some (Json.str freshId) := by
                    simp [truthyField, getField, List.lookup, truthy, hfe]
                  simp only [hstep, hstep2, hst, hrows, List.head?]
                  simp [hn, hfound2]
                · rw [hn, hfound2]
                  rfl

def reqC2 : Request :=
  mkPostReq (.obj [("input", .obj [("title", .str "A"), ("content", .str "x")])])

def rowC2 : Row :=
  { id := "id1", title := "A", content := "x", category := none,
    published := 0, createdAt := "t1", updatedAt := "t1" }

theorem C2_witness :
    getNote [rowC2] (mkGetReq (.obj [("noteId", .str "id1")])) =
      .okNote (mapSqliteRow rowC2) ∧
    (mapSqliteRow rowC2).createdAt = (mapSqliteRow rowC2).updatedAt :=
  C2_create_roundtrip [] [rowC2] reqC2 "id1" "t1" (mapSqliteRow rowC2)
    (by decide) rfl

/-- C3 (amended): for every store state and every getNotes request whose
effective page P and limit L (defaulting to 1 and 10 when absent or falsy)
are integers with P ≥ 1 and L ≥ 0, the response is the slice
[(P-1)·L, P·L) of the table ordered by createdAt descending — hence at most
L notes, in descending createdAt order, with `results` equal to the number of
notes returned.  (For L < 0 SQLite returns all rows and for P < 1 the
negative offset is clamped to zero, so the claim as stated fails there; see
the counterexample.) -/
theorem C3_pagination (st : NotesTable) (r : Request) (inputJ : Json)
    (p l : Int)
    (hin : getField (parseInput r) "input" = some inputJ)
    (hp : jsOr (getField inputJ "page") (.num 1) = .num p)
    (hl : jsOr (getField inputJ "limit") (.num 10) = .num l)
    (_hp1 : 1 ≤ p) (hl0 : 0 ≤ l) :
    getNotes st r =
      .okNotes (pageSlice st p l).length ((pageSlice st p l).map mapSqliteRow) ∧
    pageSlice st p l =
      ((sortByCreatedDesc st).drop ((p - 1) * l).toNat).take l.toNat ∧
    (pageSlice st p l).length ≤ l.toNat ∧
    (pageSlice st p l).Pairwise (fun a b => b.createdAt ≤ a.createdAt) := by
  refine ⟨?_, rfl, ?_, ?_⟩
  · unfold getNotes
    simp only [hin, hp, hl]
    unfold runNotesQuery
    simp only [jsNumber, sqlIntArg, Nat.cast_one, Nat.mul_one, Int.emod_one,
      beq_self_eq_true, if_true, Int.ediv_one]
    rw [if_neg (by omega)]
    rfl
  · unfold pageSlice
    rw [List.length_take]
    exact min_le_left _ _
  · unfold pageSlice
    exact (pairwise_sortByCreatedDesc st).sublist
      ((List.take_sublist _ _).trans (List.drop_sublist _ _))

def stC3 : NotesTable :=
  [{ id := "a", title := "A", content := "x", category := none,
     published := 0, createdAt := "2024-01-01", updatedAt := "2024-01-01" },
   { id := "b", title := "B", content := "x", category := none,
     published := 0, createdAt := "2024-01-02", updatedAt := "2024-01-02" },
   { id := "c", title := "C", content := "x", category := none,
     published := 0, createdAt := "2024-01-03", updatedAt := "2024-01-03" }]

theorem C3_witness :
    getNotes stC3 (mkGetReq (.obj [("page", .num 2), ("limit", .num 1)])) =
      .okNotes (pageSlice stC3 2 1).length
        ((pageSlice stC3 2 1).map mapSqliteRow) ∧
    pageSlice stC3 2 1 =
      ((sortByCreatedDesc stC3).drop (((2 : Int) - 1) * 1).toNat).take (1 : Int).toNat ∧
    (pageSlice stC3 2 1).length ≤ (1 : Int).toNat ∧
    (pageSlice stC3 2 1).Pairwise (fun a b => b.createdAt ≤ a.createdAt) :=
  C3_pagination stC3 (mkGetReq (.obj [("page", .num 2), ("limit", .num 1)]))
    (.obj [("page", .num 2), ("limit", .num 1)]) 2 1 rfl rfl rfl
    (by decide) (by decide)

def rowC3 : Row :=
  { id := "id3", title := "C3", content := "z", category := none,
    published := 0, createdAt := "t1", updatedAt := "t1" }

theorem isEmpty_false_of_ne {s : String} (h : s ≠ "") : s.isEmpty = false := by
  cases hs : s.isEmpty
  · rfl
  · exact absurd ((String.isEmpty_iff s).mp hs) h

theorem updateNote_reduce (st : NotesTable) (nid : String) (bodyJ : Json)
    (now : String) (upd : UpdateInput)
    (hnid : nid ≠ "")
    (hbody : truthy bodyJ = true)
    (hparse : updateNoteSchemaParse bodyJ = some upd) :
    updateNote st (mkPostReq (updPayload nid bodyJ)) now =
      (if (rowsById st (.str nid)).isEmpty then
        (.err "NOT_FOUND" "Note with that ID not found" 404, st)
      else
        match upd.title with
        | some newTitle =>
          match oneRow (rowsById st (.str nid)) with
          | .error msg => (.err "INTERNAL_SERVER_ERROR" msg 500, st)
          | .ok cur =>
            if newTitle != cur.title && titleExists st newTitle then
              (.err "CONFLICT" "Note with that title already exists" 409, st)
            else finishUpdate st (.str nid) upd now
        | none => finishUpdate st (.str nid) upd now) := by
  have hpi : parseInput (mkPostReq (updPayload nid bodyJ)) = updPayload nid bodyJ :=
    parseInput_mkPostReq_keep _ rfl rfl
  have hfe : nid.isEmpty = false := isEmpty_false_of_ne hnid
  have htrs : truthy (Json.str nid) = true := by simp [truthy, hfe]
  unfold updateNote
  rw [hpi]
  simp [mkPostReq, updPayload, truthyField, getField, List.lookup, jsOr,
    hbody, hparse, htrs, show truthy (Json.obj [("params",
      Json.obj [("noteId", Json.str nid)]), ("body", bodyJ)]) = true from rfl,
    show truthy (Json.obj [("noteId", Json.str nid)]) = true from rfl]

/-- C3 counterexample: with one stored note, a getNotes request carrying
`limit = -1` (page defaulting to 1) returns that note, while the slice
[(P-1)·L, P·L) = [0, -1) of the descending-ordered set claimed by the spec is
empty — the response is not the claimed slice and contains more than L
notes. -/
theorem C3_counterexample :
    getNotes [rowC3] (mkGetReq (.obj [("limit", .num (-1))])) =
      .okNotes 1 [mapSqliteRow rowC3] ∧
    pageSlice [rowC3] 1 (-1) = [] :=
  ⟨rfl, rfl⟩

/-- C4: an updateNote on an existing note whose payload title equals the
note's current title is never rejected as CONFLICT even though that title
exists in the store; if the payload title differs from the current title and
some note already carries it, the response is CONFLICT and the store is left
unchanged. -/
theorem C4_update_title_conflict (st : NotesTable) (nid : String) (bodyJ : Json)
    (now : String) (upd : UpdateInput) (nt : String) (cur : Row)
    (hnid : nid ≠ "")
    (hbody : truthy bodyJ = true)
    (hparse : updateNoteSchemaParse bodyJ = some upd)
    (htitle : upd.title = some nt)
    (hcur : rowsById st (.str nid) = [cur]) :
    (nt = cur.title →
      titleExists st nt = true ∧
      ∀ msg s, (updateNote st (mkPostReq (updPayload nid bodyJ)) now).1 ≠
        .err "CONFLICT" msg s) ∧
    (nt ≠ cur.title → titleExists st nt = true →
      updateNote st (mkPostReq (updPayload nid bodyJ)) now =
        (.err "CONFLICT" "Note with that title already exists" 409, st)) := by
  have hred := updateNote_reduce st nid bodyJ now upd hnid hbody hparse
  rw [hcur] at hred
  have hmem : cur ∈ st := by
    have hc : cur ∈ rowsById st (.str nid) := by
      rw [hcur]
      exact List.mem_singleton_self _
    exact List.mem_of_mem_filter hc
  constructor
  · intro hsame
    have hex : titleExists st nt = true :=
      List.any_eq_true.mpr ⟨cur, hmem, by rw [hsame]; simp⟩
    refine ⟨hex, ?_⟩
    intro msg s
    rw [hred]
    simp only [htitle, oneRow]
    split
    · rename_i hemp
      simp at hemp
    · rw [hsame]
      simp only [bne_self_eq_false, Bool.false_and]
      rw [if_neg (by simp)]
      unfold finishUpdate
      split
      · simp
      · simp
  · intro hne hex
    rw [hred]
    simp only [htitle, oneRow]
    split
    · rename_i hemp
      simp at hemp
    · rw [if_pos (by simp [hex, bne_iff_ne]; exact hne)]

def rowC4 : Row :=
  { id := "id4", title := "A", content := "x", category := none,
    published := 0, createdAt := "t1", updatedAt := "t1" }

theorem C4_witness :
    titleExists [rowC4] "A" = true ∧
    (updateNote [rowC4]
        (mkPostReq (updPayload "id4" (.obj [("title", .str "A")]))) "t2").1 ≠
      .err "CONFLICT" "Note with that title already exists" 409 := by
  have h := (C4_update_title_conflict [rowC4] "id4" (.obj [("title", .str "A")])
      "t2" ⟨some "A", none, none, none⟩ "A" rowC4 (by decide) rfl rfl rfl rfl).1 rfl
  exact ⟨h.1, h.2 _ _⟩

/-- C5: for every successful updateNote, exactly the fields present in the
payload plus updatedAt change: every absent field keeps its prior value, id
and createdAt never change, rows with a different id are untouched, and
updatedAt is set to the request timestamp even when the payload has no
fields at all. -/
theorem C5_update_frame (st : NotesTable) (nid : String) (bodyJ : Json)
    (now : String) (upd : UpdateInput) (m : ApiNote) (st2 : NotesTable)
    (hnid : nid ≠ "")
    (hbody : truthy bodyJ = true)
    (hparse : updateNoteSchemaParse bodyJ = some upd)
    (h : updateNote st (mkPostReq (updPayload nid bodyJ)) now = (.okNote m, st2)) :
    st2.length = st.length ∧
    ∀ i (hi : i < st.length) (hi2 : i < st2.length),
      (st2.get ⟨i, hi2⟩).id = (st.get ⟨i, hi⟩).id ∧
      (st2.get ⟨i, hi2⟩).createdAt = (st.get ⟨i, hi⟩).createdAt ∧
      ((st.get ⟨i, hi⟩).id ≠ nid → st2.get ⟨i, hi2⟩ = st.get ⟨i, hi⟩) ∧
      ((st.get ⟨i, hi⟩).id = nid →
        (st2.get ⟨i, hi2⟩).updatedAt = now ∧
        (upd.title = none → (st2.get ⟨i, hi2⟩).title = (st.get ⟨i, hi⟩).title) ∧
        (∀ t, upd.title = some t → (st2.get ⟨i, hi2⟩).title = t) ∧
        (upd.content = none → (st2.get ⟨i, hi2⟩).content = (st.get ⟨i, hi⟩).content) ∧
        (∀ c, upd.content = some c → (st2.get ⟨i, hi2⟩).content = c) ∧
        (upd.category = none → (st2.get ⟨i, hi2⟩).category = (st.get ⟨i, hi⟩).category) ∧
        (∀ c, upd.category = some c → (st2.get ⟨i, hi2⟩).category = some c) ∧
        (upd.published = none → (st2.get ⟨i, hi2⟩).published = (st.get ⟨i, hi⟩).published) ∧
        (∀ b, upd.published = some b →
          (st2.get ⟨i, hi2⟩).published = if b then 1 else 0)) := by
  have hred := updateNote_reduce st nid bodyJ now upd hnid hbody hparse
  rw [h] at hred
  have hst2 : st2 = updateTargets (.str nid) upd now st := by
    split at hred
    · exact absurd (congrArg Prod.fst hred) (by simp)
    · split at hred
      · split at hred
        · exact absurd (congrArg Prod.fst hred) (by simp)
        · split at hred
          · exact absurd (congrArg Prod.fst hred) (by simp)
          · unfold finishUpdate at hred
            split at hred
            · exact by simpa using congrArg Prod.snd hred
            · exact absurd (congrArg Prod.fst hred) (by simp)
      · unfold finishUpdate at hred
        split at hred
        · exact by simpa using congrArg Prod.snd hred
        · exact absurd (congrArg Prod.fst hred) (by simp)
  subst hst2
  refine ⟨by simp [updateTargets], ?_⟩
  intro i hi hi2
  have hget : (updateTargets (.str nid) upd now st).get ⟨i, hi2⟩ =
      (if jsonIdStr (.str nid) == some (st.get ⟨i, hi⟩).id then
        applyUpdate upd now (st.get ⟨i, hi⟩) else st.get ⟨i, hi⟩) := by
    simp [updateTargets]
  rw [hget]
  by_cases hidq : (st.get ⟨i, hi⟩).id = nid
  · rw [if_pos (by simp [jsonIdStr]; exact hidq.symm)]
    refine ⟨rfl, rfl, fun hc => absurd hidq hc, fun _ => ?_⟩
    refine ⟨rfl, ?_, ?_, ?_, ?_, ?_, ?_, ?_, ?_⟩
    · intro ht
      simp [applyUpdate, ht]
    · intro t ht
      simp [applyUpdate, ht]
    · intro hc
      simp [applyUpdate, hc]
    · intro c hc
      simp [applyUpdate, hc]
    · intro hc
      simp [applyUpdate, hc]
    · intro c hc
      simp [applyUpdate, hc]
    · intro hp
      simp [applyUpdate, hp]
    · intro b hp
      simp [applyUpdate, hp]
  · rw [if_neg (by simp [jsonIdStr]; exact fun he => hidq he.symm)]
    exact ⟨rfl, rfl, fun _ => rfl, fun hc => absurd hc hidq⟩

def rowC5 : Row :=
  { id := "id5", title := "T", content := "c", category := some "cat",
    published := 1, createdAt := "t1", updatedAt := "t1" }

def rowC5upd : Row :=
  { id := "id5", title := "T", content := "c", category := some "cat",
    published := 1, createdAt := "t1", updatedAt := "t9" }

theorem C5_witness :
    ([rowC5upd] : NotesTable).length = ([rowC5] : NotesTable).length ∧
    (([rowC5upd] : NotesTable).get ⟨0, by decide⟩).updatedAt = "t9" ∧
    (([rowC5upd] : NotesTable).get ⟨0, by decide⟩).title = rowC5.title ∧
    (([rowC5upd] : NotesTable).get ⟨0, by decide⟩).createdAt = rowC5.createdAt := by
  have h := C5_update_frame [rowC5] "id5" (.obj []) "t9" ⟨none, none, none, none⟩
      (mapSqliteRow rowC5upd) [rowC5upd] (by decide) rfl rfl rfl
  have h0 := h.2 0 (by decide) (by decide)
  have hmut := h0.2.2.2 rfl
  exact ⟨h.1, hmut.1, hmut.2.1 rfl, h0.2.1⟩

/-- A GET request with the batch flag set to `b` and the input parameter
decoding to `j`. -/
def mkGetBatchReq (b : Bool) (j : Json) : Request :=
  { method := .GET
    batch := b
    inputParam := some (some j)
    contentType := none
    body := none }

theorem truthy_of_getField_some {j : Json} {k : String} {v : Json}
    (h : getField j k = some v) : truthy j = true := by
  cases j with
  | arr elems => rfl
  | obj fields => rfl
  | null => simp [getField] at h
  | bool b => simp [getField] at h
  | num n => simp [getField] at h
  | str sv => simp [getField] at h

/-- C6: every decode failure — an unparseable JSON body, a non-JSON declared
content type, an unparseable input query parameter, or an unsupported
method — yields the empty input payload instead of an error, and a createNote
POST with a malformed JSON body therefore surfaces as the BAD_REQUEST
validation error for the missing required fields, never as a decode or parse
error. -/
theorem C6_decode_failures :
    (∀ r : Request, r.method = Method.POST →
      strIncludes (r.contentType.getD "") "application/json" = true →
      r.body = none → parseInput r = emptyPayload) ∧
    (∀ r : Request, r.method = Method.POST →
      strIncludes (r.contentType.getD "") "application/json" = false →
      parseInput r = emptyPayload) ∧
    (∀ r : Request, r.method = Method.GET → r.inputParam = some none →
      parseInput r = emptyPayload) ∧
    (∀ r : Request, r.method ≠ Method.GET → r.method ≠ Method.POST →
      parseInput r = emptyPayload) ∧
    (∀ (st : NotesTable) (r : Request) (freshId now : String),
      r.method = Method.POST →
      strIncludes (r.contentType.getD "") "application/json" = true →
      r.body = none →
      createNote st r freshId now =
        (.err "BAD_REQUEST" "Validation error" 400, st)) := by
  have hdec : ∀ r : Request, decodeRaw r = none → parseInput r = emptyPayload := by
    intro r h
    unfold parseInput
    rw [h]
  have hbody : ∀ r : Request, r.method = Method.POST →
      strIncludes (r.contentType.getD "") "application/json" = true →
      r.body = none → parseInput r = emptyPayload := by
    intro r hm hct hb
    apply hdec
    unfold decodeRaw
    rw [hm, hct, hb]
    rfl
  refine ⟨hbody, ?_, ?_, ?_, ?_⟩
  · intro r hm hct
    apply hdec
    unfold decodeRaw
    rw [hm, hct]
    rfl
  · intro r hm hip
    apply hdec
    unfold decodeRaw
    rw [hm, hip]
  · intro r h1 h2
    apply hdec
    unfold decodeRaw
    cases hm : r.method
    · exact absurd hm h1
    · exact absurd hm h2
    all_goals rfl
  · intro st r freshId now hm hct hb
    have hpi := hbody r hm hct hb
    unfold createNote
    rw [hpi, hm]
    rfl

def reqC6 : Request :=
  { method := .POST
    batch := false
    inputParam := none
    contentType := some "application/json"
    body := none }

theorem C6_witness :
    parseInput reqC6 = emptyPayload ∧
    createNote [] reqC6 "id6" "t6" =
      (.err "BAD_REQUEST" "Validation error" 400, []) :=
  ⟨C6_decode_failures.1 reqC6 rfl rfl rfl,
   C6_decode_failures.2.2.2.2 [] reqC6 "id6" "t6" rfl rfl rfl⟩

/-- C7: after a successful decode, a batch-mode object with a defined key "0"
is unwrapped to that key's value as `input` — taking precedence over the
input-field rule — otherwise a value that already has a defined `input` field
is returned as-is, and any other value is wrapped into an input envelope. -/
theorem C7_decode_wrapping (b : Bool) (raw : Json) :
    ((b && truthy raw && isObjectType raw) = true →
      ∀ v, getField raw "0" = some v →
      parseInput (mkGetBatchReq b raw) = .obj [("input", v)]) ∧
    ((b && truthy raw && isObjectType raw && (getField raw "0").isSome) = false →
      ∀ w, getField raw "input" = some w →
      parseInput (mkGetBatchReq b raw) = raw) ∧
    ((b && truthy raw && isObjectType raw && (getField raw "0").isSome) = false →
      getField raw "input" = none →
      parseInput (mkGetBatchReq b raw) = .obj [("input", raw)]) := by
  have hred : parseInput (mkGetBatchReq b raw) =
      (match (if b && truthy raw && isObjectType raw then getField raw "0" else none) with
       | some v => Json.obj [("input", v)]
       | none =>
         if truthy raw && (getField raw "input").isSome then raw
         else Json.obj [("input", raw)]) := rfl
  refine ⟨?_, ?_, ?_⟩
  · intro hguard v hv
    rw [hred, if_pos hguard, hv]
  · intro hguard w hw
    have hz : (if b && truthy raw && isObjectType raw
        then getField raw "0" else none) = none := by
      by_cases hg : (b && truthy raw && isObjectType raw) = true
      · rw [if_pos hg]
        rw [hg, Bool.true_and] at hguard
        exact Option.not_isSome_iff_eq_none.mp (by simp [hguard])
      · exact if_neg hg
    rw [hred, hz]
    simp [truthy_of_getField_some hw, hw]
  · intro hguard hw
    have hz : (if b && truthy raw && isObjectType raw
        then getField raw "0" else none) = none := by
      by_cases hg : (b && truthy raw && isObjectType raw) = true
      · rw [if_pos hg]
        rw [hg, Bool.true_and] at hguard
        exact Option.not_isSome_iff_eq_none.mp (by simp [hguard])
      · exact if_neg hg
    rw [hred, hz]
    simp [hw]

theorem C7_witness :
    parseInput (mkGetBatchReq true
        (.obj [("0", .str "zero"), ("input", .str "inp")])) =
      .obj [("input", .str "zero")] :=
  (C7_decode_wrapping true (.obj [("0", .str "zero"), ("input", .str "inp")])).1
    rfl (.str "zero") rfl

/-- C8 (amended): getNotes performs no schema validation and never returns a
BAD_REQUEST error; a limit whose effective value has an invalid type (truthy
but not convertible to an integer) is passed to the store unvalidated and
surfaces as INTERNAL_SERVER_ERROR with status 500 — internal storage failure
is the only error condition of getNotes. -/
theorem C8_getNotes_no_validation :
    (∀ (st : NotesTable) (r : Request), isBadRequest (getNotes st r) = false) ∧
    (∀ (st : NotesTable) (r : Request) (inputJ : Json),
      getField (parseInput r) "input" = some inputJ →
      sqlIntArg (jsOr (getField inputJ "limit") (.num 10)) = none →
      getNotes st r = .err "INTERNAL_SERVER_ERROR" "SQL argument error" 500) := by
  constructor
  · intro st r
    unfold getNotes
    split
    · unfold runNotesQuery
      split
      · dsimp only
        split
        · rfl
        · rfl
      · rfl
    · unfold runNotesQuery
      split
      · dsimp only
        split
        · rfl
        · rfl
      · rfl
  · intro st r inputJ hin hsql
    unfold getNotes
    rw [hin]
    split
    · rename_i hnone
      exact absurd hnone (by simp)
    · rename_i rawJ hsome
      injection hsome with hsome
      subst hsome
      unfold runNotesQuery
      split
      · rename_i p lNum lSql h1 h2 h3
        rw [hsql] at h3
        exact absurd h3 (by simp)
      · rfl

def reqC8 : Request := mkGetReq (.obj [("limit", .str "abc")])

theorem C8_witness :
    getNotes [] reqC8 = .err "INTERNAL_SERVER_ERROR" "SQL argument error" 500 :=
  C8_getNotes_no_validation.2 [] reqC8 (.obj [("limit", .str "abc")]) rfl (by decide)

/-- C8 counterexample: a getNotes request whose limit field is the string
"abc" — an invalid type for the integer field — is answered with
INTERNAL_SERVER_ERROR status 500, not with the BAD_REQUEST error the claim
requires; getNotes never validates its input. -/
theorem C8_counterexample :
    getNotes [] (mkGetReq (.obj [("limit", .str "abc")])) =
      .err "INTERNAL_SERVER_ERROR" "SQL argument error" 500 ∧
    isBadRequest (getNotes [] (mkGetReq (.obj [("limit", .str "abc")]))) = false := by
  constructor
  · decide
  · decide

theorem notClientCode {code msg : String} {stat s2 : Nat} {m2 : String}
    (hc : code = "BAD_REQUEST" ∨ code = "CONFLICT" ∨ code = "NOT_FOUND" ∨
      code = "METHOD_NOT_SUPPORTED")
    (he : Result.err "INTERNAL_SERVER_ERROR" m2 s2 = Result.err code msg stat) :
    False := by
  injection he with h1 h2 h3
  rcases hc with h | h | h | h <;> rw [h] at h1 <;> exact absurd h1 (by decide)

/-- C9: errors are atomic — whenever createNote, updateNote or deleteNote
answers a BAD_REQUEST, CONFLICT, NOT_FOUND or METHOD_NOT_SUPPORTED error
envelope, the notes table is unchanged: nothing is inserted, modified or
deleted and no updatedAt is refreshed. -/
theorem C9_error_atomicity (st : NotesTable) (r : Request)
    (freshId now : String) (code msg : String) (stat : Nat)
    (hc : code = "BAD_REQUEST" ∨ code = "CONFLICT" ∨ code = "NOT_FOUND" ∨
      code = "METHOD_NOT_SUPPORTED") :
    ((createNote st r freshId now).1 = .err code msg stat →
      (createNote st r freshId now).2 = st) ∧
    ((updateNote st r now).1 = .err code msg stat →
      (updateNote st r now).2 = st) ∧
    ((deleteNote st r).1 = .err code msg stat → (deleteNote st r).2 = st) := by
  refine ⟨?_, ?_, ?_⟩
  · unfold createNote
    split
    · exact fun _ => rfl
    · split
      · exact fun _ => rfl
      · split
        · exact fun _ => rfl
        · split
          · exact fun _ => rfl
          · split
            · exact fun _ => rfl
            · split
              · split
                · exact fun _ => rfl
                · exact fun he => (notClientCode hc he).elim
              · split
                · exact fun he => (notClientCode hc he).elim
                · exact fun he => Result.noConfusion he
  · unfold updateNote
    split
    · exact fun _ => rfl
    · split
      · exact fun _ => rfl
      · split
        · exact fun _ => rfl
        · split
          · exact fun _ => rfl
          · split
            · exact fun _ => rfl
            · split
              · exact fun _ => rfl
              · split
                · split
                  · exact fun he => (notClientCode hc he).elim
                  · split
                    · exact fun _ => rfl
                    · unfold finishUpdate
                      split
                      · exact fun he => Result.noConfusion he
                      · exact fun he => (notClientCode hc he).elim
                · unfold finishUpdate
                  split
                  · exact fun he => Result.noConfusion he
                  · exact fun he => (notClientCode hc he).elim
  · unfold deleteNote
    split
    · exact fun _ => rfl
    · split
      · exact fun _ => rfl
      · split
        · exact fun _ => rfl
        · split
          · exact fun _ => rfl
          · exact fun he => Result.noConfusion he

theorem C9_witness :
    (createNote [] (mkGetReq (.obj [])) "id9" "t9").2 = [] ∧
    (updateNote [] (mkGetReq (.obj [])) "t9").2 = [] ∧
    (deleteNote [] (mkGetReq (.obj []))).2 = [] := by
  have h := C9_error_atomicity [] (mkGetReq (.obj [])) "id9" "t9"
    "METHOD_NOT_SUPPORTED" "Method not allowed" 405
    (Or.inr (Or.inr (Or.inr rfl)))
  exact ⟨h.1 rfl, h.2.1 rfl, h.2.2 rfl⟩

/-- C10: for every request whose HTTP method is neither GET nor POST the
decoder yields the empty input payload — no payload is read from the query or
the body — so getNote answers BAD_REQUEST for the missing noteId regardless
of what the request carries, and getNotes returns the default first page
(limit 10, page 1). -/
theorem C10_method_fallback (st : NotesTable) (r : Request)
    (h1 : r.method ≠ Method.GET) (h2 : r.method ≠ Method.POST) :
    parseInput r = emptyPayload ∧
    getNote st r = .err "BAD_REQUEST" "Invalid request format: missing noteId" 400 ∧
    getNotes st r =
      .okNotes ((sortByCreatedDesc st).take 10).length
        (((sortByCreatedDesc st).take 10).map mapSqliteRow) := by
  have hpi : parseInput r = emptyPayload := by
    unfold parseInput decodeRaw
    cases hm : r.method
    · exact absurd hm h1
    · exact absurd hm h2
    all_goals rfl
  refine ⟨hpi, ?_, ?_⟩
  · unfold getNote
    rw [hpi]
    rfl
  · unfold getNotes
    rw [hpi]
    rfl

def reqC10 : Request :=
  { method := .PUT
    batch := false
    inputParam := some (some (.obj [("noteId", .str "id1")]))
    contentType := none
    body := some (.obj [("noteId", .str "id1")]) }

theorem C10_witness :
    parseInput reqC10 = emptyPayload ∧
    getNote [] reqC10 =
      .err "BAD_REQUEST" "Invalid request format: missing noteId" 400 ∧
    getNotes [] reqC10 =
      .okNotes ((sortByCreatedDesc []).take 10).length
        (((sortByCreatedDesc []).take 10).map mapSqliteRow) :=
  C10_method_fallback [] reqC10 (by decide) (by decide)

end NotesApp
